import Mathlib

/-!
Verification of the tool-registry and human-approval conversation core of the
agent-durability samples.  The definitions below are a shallow embedding of the
TypeScript sources:

* samples/openai-agent-adapter/multi-durable-agent-function/src/Tool.ts
  (ToolRegistry: registerTool, executeTool, getOpenAISchema, accessors);
* samples/openai-agent-framework/human-in-loop-sample/src/durableWrapper.ts
  (id-keyed conversation entity, the in-memory mock approval gate of
  HumanInLoopDurableAgentWrapper);
* samples/openai-agent-framework/human-in-loop-sample/src/durableAgentOrchestrator.ts
  (session-keyed conversation entity and the polling approval gate of the
  chat orchestrator);
* the unnamed DurableOpenAiAgentOrchestrator module (simple chat orchestrator
  turn loop and the chat HTTP endpoint input extraction).

JavaScript Maps and plain objects are modelled as insertion-ordered association
lists (a set on an existing key replaces the value in place, as JS Map does);
wall-clock timestamps are modelled as naturals supplied by the caller; promise
rejection / throw is modelled with Except.
-/

/-- A JSON-style argument value as passed to tools (JSON.parse output).
An absent property (JS undefined) is modelled as Option.none at use sites. -/
inductive JsValue where
  | str : String → JsValue
  | num : Int → JsValue
  | bool : Bool → JsValue
deriving DecidableEq, Repr

/-- An argument mapping, i.e. the parsed JSON object given to a tool call. -/
abbrev Args : Type := List (String × JsValue)

/-- JS Map.get / object property read: first entry with the key, none if absent
(none plays the role of undefined). -/
def mapGet {α : Type} (m : List (String × α)) (k : String) : Option α :=
  match m with
  | [] => none
  | (k0, v0) :: rest => if k0 = k then some v0 else mapGet rest k

/-- JS Map.set: replace the value in place at the first occurrence of the key,
keeping its original position; append a new entry otherwise. -/
def mapSet {α : Type} (m : List (String × α)) (k : String) (v : α) : List (String × α) :=
  match m with
  | [] => [(k, v)]
  | (k0, v0) :: rest => if k0 = k then (k, v) :: rest else (k0, v0) :: mapSet rest k v

/-- Property read on an argument object: args[name]; undefined when absent. -/
def lookupArg (args : Args) (name : String) : Option JsValue :=
  mapGet args name

/-- The JS expression a || b for an optional string a: b when a is undefined,
null or the empty string (all falsy), a otherwise. -/
def jsOrString (a : Option String) (b : String) : String :=
  match a with
  | some s => if s = "" then b else s
  | none => b

/-- Array.prototype.find followed by an in-place mutation of the found element:
rewrite the first element satisfying p by f, returning the new list and the
updated element; none when no element matches. -/
def updateFirstWith {α : Type} (p : α → Bool) (f : α → α) : List α → Option (List α × α)
  | [] => none
  | x :: xs =>
    if p x then some (f x :: xs, f x)
    else
      match updateFirstWith p f xs with
      | some (l, y) => some (x :: l, y)
      | none => none

/-- Encode JSON.stringify of a single value (shape only; used for log-style
reasoning strings whose exact content no claim depends on). -/
def JsValue.encode : JsValue → String
  | .str s => "\x22" ++ s ++ "\x22"
  | .num n => toString n
  | .bool b => if b then "true" else "false"

/-- Encode JSON.stringify of an argument object. -/
def encodeArgs (args : Args) : String :=
  "\x7b" ++ String.intercalate "," (args.map (fun p => "\x22" ++ p.1 ++ "\x22:" ++ p.2.encode)) ++ "\x7d"

/-! ### Tool.ts: ToolParameter, ToolDefinition, ToolRegistry -/

/-- The enumerated parameter type set of Tool.ts. -/
inductive ParamType where
  | string | number | boolean | object | array
deriving DecidableEq, Repr

/-- ToolParameter of Tool.ts: required is an optional boolean (undefined when
omitted, which counts as required). -/
structure ToolParameter where
  type : ParamType
  description : String
  required : Option Bool
deriving DecidableEq, Repr

/-- ToolDefinition of Tool.ts.  parameters is a Record, i.e. an
insertion-ordered association list; the handler takes positional arguments
(undefined modelled as none) and may reject with an error message. -/
structure ToolDefinition where
  name : String
  description : String
  parameters : List (String × ToolParameter)
  handler : List (Option JsValue) → Except String String

/-- The ToolRegistry backing Map from tool name to definition. -/
abbrev ToolRegistry : Type := List (String × ToolDefinition)

/-- ToolRegistry.registerTool: this.tools.set(toolDef.name, toolDef). -/
def registerTool (reg : ToolRegistry) (toolDef : ToolDefinition) : ToolRegistry :=
  mapSet reg toolDef.name toolDef

/-- ToolRegistry.getToolNames: Array.from(this.tools.keys()). -/
def getToolNames (reg : ToolRegistry) : List String :=
  reg.map Prod.fst

/-- ToolRegistry.hasTool. -/
def hasTool (reg : ToolRegistry) (toolName : String) : Bool :=
  (mapGet reg toolName).isSome

/-- ToolRegistry.getToolCount. -/
def getToolCount (reg : ToolRegistry) : Nat :=
  reg.length

/-- The positional argument array built by executeTool:
Object.keys(tool.parameters).map(paramName => args[paramName]). -/
def argArrayOf (tool : ToolDefinition) (args : Args) : List (Option JsValue) :=
  (tool.parameters.map Prod.fst).map (fun paramName => lookupArg args paramName)

/-- ToolRegistry.executeTool: look the tool up (throwing when absent), build
the positional argument array in parameter declaration order, invoke the
handler, and catch a handler failure, converting it into a textual result. -/
def executeTool (reg : ToolRegistry) (toolName : String) (args : Args) : Except String String :=
  match mapGet reg toolName with
  | none => Except.error ("Tool \x27" ++ toolName ++ "\x27 not found in registry")
  | some tool =>
    match tool.handler (argArrayOf tool args) with
    | Except.ok result => Except.ok result
    | Except.error err => Except.ok ("Error executing " ++ toolName ++ ": " ++ err)

/-- One rendered property of the OpenAI function schema. -/
structure PropertySchema where
  type : ParamType
  description : String
deriving DecidableEq, Repr

/-- The parameters object of one rendered OpenAI function schema. -/
structure FunctionParametersSchema where
  type : String
  properties : List (String × PropertySchema)
  required : List String
deriving DecidableEq, Repr

/-- One rendered OpenAI function schema entry. -/
structure FunctionSchema where
  name : String
  description : String
  parameters : FunctionParametersSchema
deriving DecidableEq, Repr

/-- ToolRegistry.getOpenAISchema: one entry per registered tool in Map value
order, properties built by an in-order reduce over Object.entries, and
required the names of parameters whose required field is not false. -/
def getOpenAISchema (reg : ToolRegistry) : List FunctionSchema :=
  reg.map (fun p =>
    { name := p.2.name
      description := p.2.description
      parameters :=
        { type := "object"
          properties := p.2.parameters.map (fun q => (q.1, ⟨q.2.type, q.2.description⟩))
          required := (p.2.parameters.filter (fun q => decide (q.2.required ≠ some false))).map Prod.fst } })

/-- Rendering of one tool as stated by the spec: a structure of the shape
name, description, parameters with type object, one property per parameter
with its type and description, and required listing the parameter names whose
required field is not false.  Stated from the spec wording, to be compared
with getOpenAISchema. -/
def describeToolSpec (tool : ToolDefinition) : FunctionSchema :=
  { name := tool.name
    description := tool.description
    parameters :=
      { type := "object"
        properties := tool.parameters.map (fun q => (q.1, ⟨q.2.type, q.2.description⟩))
        required := (tool.parameters.filter (fun q => decide (q.2.required ≠ some false))).map Prod.fst } }

/-! ### Shared conversation-entity vocabulary -/

/-- Chat message role. -/
inductive Role where
  | user | assistant | system
deriving DecidableEq, Repr

/-- Approval status of a human approval request. -/
inductive ApprovalStatus where
  | pending | approved | rejected
deriving DecidableEq, Repr

/-- A human decision as supplied to handleApproval (the TS union of the two
string literals approved and rejected). -/
inductive Decision where
  | approved | rejected
deriving DecidableEq, Repr

/-- The status a decision writes into a request. -/
def Decision.toStatus : Decision → ApprovalStatus
  | .approved => ApprovalStatus.approved
  | .rejected => ApprovalStatus.rejected

/-- A chat message as stored in the conversation entity state. -/
structure ChatMessage where
  role : Role
  content : String
  timestamp : Nat
deriving DecidableEq, Repr

/-! ### durableWrapper.ts: id-keyed conversation entity of
HumanInLoopDurableAgentWrapper -/

namespace Wrapper

/-- HumanApprovalRequest of durableWrapper.ts, keyed by a generated GUID id. -/
structure HumanApprovalRequest where
  id : String
  toolName : String
  toolArgs : Args
  reasoning : String
  timestamp : Nat
  status : ApprovalStatus
  humanResponse : Option String
  humanResponseTimestamp : Option Nat
deriving DecidableEq, Repr

/-- ConversationState of durableWrapper.ts. -/
structure ConversationState where
  chatHistory : List ChatMessage
  pendingApprovals : List HumanApprovalRequest
  createdAt : Nat
  lastUpdated : Nat
deriving DecidableEq, Repr

/-- The lazily created initial entity state. -/
def freshState (now : Nat) : ConversationState :=
  { chatHistory := [], pendingApprovals := [], createdAt := now, lastUpdated := now }

/-- Entity operation addMessage: push a timestamped message and bump
lastUpdated. -/
def addMessage (st : ConversationState) (role : Role) (content : String) (now : Nat) :
    ConversationState :=
  { st with chatHistory := st.chatHistory ++ [⟨role, content, now⟩], lastUpdated := now }

/-- Entity operation addApprovalRequest: append a pending request under a
freshly generated GUID (the GUID is an input here, standing for the random
generateGuid call) and return the new id. -/
def addApprovalRequest (st : ConversationState) (freshId toolName : String) (toolArgs : Args)
    (reasoning : String) (now : Nat) : ConversationState × String :=
  let req : HumanApprovalRequest :=
    { id := freshId
      toolName := toolName
      toolArgs := toolArgs
      reasoning := reasoning
      timestamp := now
      status := ApprovalStatus.pending
      humanResponse := none
      humanResponseTimestamp := none }
  ({ st with pendingApprovals := st.pendingApprovals ++ [req], lastUpdated := now }, freshId)

/-- Result of the handleApproval entity operation: success with the mutated
request, or the not-found failure object. -/
inductive HandleApprovalResult where
  | success (approval : HumanApprovalRequest)
  | notFound
deriving DecidableEq, Repr

/-- The in-place mutation handleApproval performs on the found request. -/
def resolveRequest (decision : Decision) (humanResponse : Option String) (now : Nat)
    (a : HumanApprovalRequest) : HumanApprovalRequest :=
  { a with
    status := decision.toStatus
    humanResponse := humanResponse
    humanResponseTimestamp := some now }

/-- Entity operation handleApproval of durableWrapper.ts: find the first
request with the given id (any status), mutate its status, response and
response timestamp and bump lastUpdated; when no request matches, leave the
state untouched and report the not-found failure. -/
def handleApproval (st : ConversationState) (approvalId : String) (decision : Decision)
    (humanResponse : Option String) (now : Nat) : ConversationState × HandleApprovalResult :=
  match updateFirstWith (fun a => decide (a.id = approvalId))
      (resolveRequest decision humanResponse now) st.pendingApprovals with
  | some (l, upd) =>
    ({ st with pendingApprovals := l, lastUpdated := now }, HandleApprovalResult.success upd)
  | none => (st, HandleApprovalResult.notFound)

end Wrapper

namespace Wrapper

/-- The record stored by storePendingApproval in the in-memory pendingApprovals
Map of HumanInLoopDurableAgentWrapper (fields added later by
processApprovalDecision start out absent). -/
structure PendingApprovalData where
  toolName : String
  toolArgs : Args
  reasoning : String
  sessionId : String
  timestamp : Nat
  status : ApprovalStatus
  feedback : Option String := none
  decidedAt : Option Nat := none
  executionResult : Option String := none
  executionError : Option String := none
  executedAt : Option Nat := none
deriving DecidableEq, Repr

/-- The value requestHumanApproval resolves with. -/
structure ApprovalOutcome where
  decision : Decision
  humanResponse : Option String
  instanceId : Option String
deriving DecidableEq, Repr

/-- requestHumanApproval of HumanInLoopDurableAgentWrapper: mint the
deterministic approval id, store a pending record in the in-memory map, and
immediately resolve with decision approved (the comment in the source says the
decision will be overridden by the orchestration result, but nothing does). -/
def requestHumanApproval (pending : List (String × PendingApprovalData))
    (sessionId toolName : String) (toolArgs : Args) (reasoning : String) (now : Nat) :
    List (String × PendingApprovalData) × ApprovalOutcome :=
  let approvalId := "approval-" ++ sessionId ++ "-" ++ toolName ++ "-" ++ toString now
  let data : PendingApprovalData :=
    { toolName := toolName
      toolArgs := toolArgs
      reasoning := reasoning
      sessionId := sessionId
      timestamp := now
      status := ApprovalStatus.pending }
  (mapSet pending approvalId data,
   { decision := Decision.approved
     humanResponse := some ("Approval request " ++ approvalId ++ " created for " ++ toolName ++
       ". Waiting for human decision.")
     instanceId := some approvalId })

/-- Outcome of processing one requested tool call inside
executeOpenAIChatWithHumanApproval: the in-memory approval map afterwards, the
textual tool-result message content, and the executor invocations performed
(name and argument mapping of each tool handler actually run). -/
structure GatedToolOutcome where
  pending : List (String × PendingApprovalData)
  toolMessage : String
  executorCalls : List (String × Args)
deriving Repr

/-- The per-tool-call body of the loop in executeOpenAIChatWithHumanApproval
(durableWrapper.ts): a tool in the human-approval set goes through
requestHumanApproval and, because that mock resolves approved at once, is
executed immediately; a tool outside the set is executed directly with a
catch converting a thrown lookup failure into a textual result.  A throw that
escapes (only the uncaught lookup failure in the gated branch) is the error
case. -/
def gatedToolCallStep (reg : ToolRegistry) (humanApprovalTools : List String)
    (pending : List (String × PendingApprovalData)) (sessionId toolName : String)
    (toolArgs : Args) (reasoning : String) (now : Nat) : Except String GatedToolOutcome :=
  if toolName ∈ humanApprovalTools then
    let res := requestHumanApproval pending sessionId toolName toolArgs reasoning now
    if res.2.decision = Decision.approved then
      match executeTool reg toolName toolArgs with
      | Except.ok toolResult =>
        Except.ok ⟨res.1, "[HUMAN APPROVED] " ++ toolResult, [(toolName, toolArgs)]⟩
      | Except.error e => Except.error e
    else
      Except.ok ⟨res.1,
        "[HUMAN REJECTED] Tool execution was rejected by human. Reason: " ++
          jsOrString res.2.humanResponse "No reason provided", []⟩
  else
    match executeTool reg toolName toolArgs with
    | Except.ok toolResult => Except.ok ⟨pending, toolResult, [(toolName, toolArgs)]⟩
    | Except.error e => Except.ok ⟨pending, "Error executing " ++ toolName ++ ": " ++ e, []⟩

/-- processApprovalDecision of HumanInLoopDurableAgentWrapper: record the
human decision on a stored approval (false when the id is unknown) and, on
approval, execute the tool again, storing its result; returns the updated map,
the success flag, and the executor invocations performed. -/
def processApprovalDecision (reg : ToolRegistry) (pending : List (String × PendingApprovalData))
    (approvalId : String) (approved : Bool) (feedback : Option String) (now : Nat) :
    List (String × PendingApprovalData) × Bool × List (String × Args) :=
  match mapGet pending approvalId with
  | none => (pending, false, [])
  | some approval =>
    let a1 :=
      { approval with
        status := if approved then ApprovalStatus.approved else ApprovalStatus.rejected
        feedback := feedback
        decidedAt := some now }
    if approved then
      match executeTool reg a1.toolName a1.toolArgs with
      | Except.ok r =>
        (mapSet pending approvalId { a1 with executionResult := some r, executedAt := some now },
         true, [(a1.toolName, a1.toolArgs)])
      | Except.error e =>
        (mapSet pending approvalId { a1 with executionError := some e }, true, [])
    else
      (mapSet pending approvalId a1, true, [])

end Wrapper

/-! ### durableAgentOrchestrator.ts: session-keyed conversation entity and the
polling approval gate of HumanInLoopDurableAgentOrchestrator -/

namespace SessionGate

/-- HumanApprovalRequest of durableAgentOrchestrator.ts, keyed by sessionId
rather than a generated id. -/
structure HumanApprovalRequest where
  sessionId : String
  toolName : String
  toolArgs : Args
  reasoning : String
  timestamp : Nat
  status : ApprovalStatus
  humanResponse : Option String
  humanResponseTimestamp : Option Nat
deriving DecidableEq, Repr

/-- ConversationState of durableAgentOrchestrator.ts. -/
structure ConversationState where
  chatHistory : List ChatMessage
  pendingApprovals : List HumanApprovalRequest
  createdAt : Nat
  lastUpdated : Nat
deriving DecidableEq, Repr

/-- The lazily created initial entity state. -/
def freshState (now : Nat) : ConversationState :=
  { chatHistory := [], pendingApprovals := [], createdAt := now, lastUpdated := now }

/-- Entity operation addMessage. -/
def addMessage (st : ConversationState) (role : Role) (content : String) (now : Nat) :
    ConversationState :=
  { st with chatHistory := st.chatHistory ++ [⟨role, content, now⟩], lastUpdated := now }

/-- Entity operation addApprovalRequest: append a pending request carrying the
session id and return that session id. -/
def addApprovalRequest (st : ConversationState) (sessionId toolName : String) (toolArgs : Args)
    (reasoning : String) (now : Nat) : ConversationState × String :=
  let req : HumanApprovalRequest :=
    { sessionId := sessionId
      toolName := toolName
      toolArgs := toolArgs
      reasoning := reasoning
      timestamp := now
      status := ApprovalStatus.pending
      humanResponse := none
      humanResponseTimestamp := none }
  ({ st with pendingApprovals := st.pendingApprovals ++ [req], lastUpdated := now }, sessionId)

/-- Result of the handleApproval entity operation. -/
inductive HandleApprovalResult where
  | success (approval : HumanApprovalRequest)
  | notFound
deriving DecidableEq, Repr

/-- The in-place mutation handleApproval performs on the found request. -/
def resolveRequest (decision : Decision) (humanResponse : Option String) (now : Nat)
    (a : HumanApprovalRequest) : HumanApprovalRequest :=
  { a with
    status := decision.toStatus
    humanResponse := humanResponse
    humanResponseTimestamp := some now }

/-- Entity operation handleApproval of durableAgentOrchestrator.ts: find the
first request whose sessionId matches and whose status is still pending,
mutate it and bump lastUpdated; otherwise leave the state untouched and report
the not-found failure. -/
def handleApproval (st : ConversationState) (sessionId : String) (decision : Decision)
    (humanResponse : Option String) (now : Nat) : ConversationState × HandleApprovalResult :=
  match updateFirstWith
      (fun a => decide (a.sessionId = sessionId ∧ a.status = ApprovalStatus.pending))
      (resolveRequest decision humanResponse now) st.pendingApprovals with
  | some (l, upd) =>
    ({ st with pendingApprovals := l, lastUpdated := now }, HandleApprovalResult.success upd)
  | none => (st, HandleApprovalResult.notFound)

end SessionGate

namespace SessionGate

/-- The check the orchestrator's poll performs on a getState result: find an
approval for this session and tool whose status is no longer pending. -/
def findDecided (st : ConversationState) (sessionId toolName : String) :
    Option HumanApprovalRequest :=
  st.pendingApprovals.find? (fun a =>
    decide (a.sessionId = sessionId ∧ a.toolName = toolName ∧ a.status ≠ ApprovalStatus.pending))

/-- The poll-with-timeout loop of the chat orchestrator: while no decision has
been observed and the current time is before the deadline, wait 5000 ms, read
the entity state (storeAt gives the state visible at each instant, reflecting
out-of-band handleApproval signals) and look for the decided approval; none
means the deadline passed with every poll still pending. -/
def pollForDecision (storeAt : Nat → ConversationState) (sessionId toolName : String)
    (deadline t : Nat) : Option HumanApprovalRequest :=
  if _h : t < deadline then
    match findDecided (storeAt (t + 5000)) sessionId toolName with
    | some a => some a
    | none => pollForDecision storeAt sessionId toolName deadline (t + 5000)
  else
    none
termination_by deadline - t
decreasing_by omega

/-- Outcome of the gated branch of the chat orchestrator for one tool call:
the entity state after the orchestrator's own entity calls, the final response
text, and the executor invocations performed via the ExecuteTool activity. -/
structure GatedCallResult where
  state : ConversationState
  finalResponse : String
  executorCalls : List (String × Args)
deriving Repr

/-- The gated branch of createChatOrchestrator (durableAgentOrchestrator.ts)
for one tool call requiring approval: create the approval request, poll for a
human decision until the deadline t0 plus approvalTimeoutMinutes; on an
approved decision run the ExecuteTool activity and wrap its result, on a
rejected decision produce the rejection text without executing, and on
timeout mark the request rejected with a timeout reason and produce the
synthetic timeout text without executing.  execTool stands for the
ExecuteTool activity result on a registered tool. -/
def runGatedToolCall (storeAt : Nat → ConversationState) (execTool : String → Args → String)
    (st : ConversationState) (sessionId toolName : String) (toolArgs : Args)
    (t0 approvalTimeoutMinutes : Nat) : GatedCallResult :=
  let st1 := (addApprovalRequest st sessionId toolName toolArgs
    ("AI wants to execute " ++ toolName ++ " with: " ++ encodeArgs toolArgs) t0).1
  let deadline := t0 + approvalTimeoutMinutes * 60 * 1000
  match pollForDecision storeAt sessionId toolName deadline t0 with
  | some a =>
    if a.status = ApprovalStatus.approved then
      let toolResult := execTool toolName toolArgs
      { state := st1
        finalResponse := "[HUMAN APPROVED] " ++ toolResult
        executorCalls := [(toolName, toolArgs)] }
    else
      let feedback := a.humanResponse.getD ""
      { state := st1
        finalResponse := "[HUMAN REJECTED] " ++ (if feedback = "" then "Operation was rejected" else feedback)
        executorCalls := [] }
  | none =>
    let msg := "Timeout after " ++ toString approvalTimeoutMinutes ++ " minutes"
    let st2 := (handleApproval st1 sessionId Decision.rejected (some msg) deadline).1
    { state := st2
      finalResponse := "[TIMEOUT] Request timed out after " ++ toString approvalTimeoutMinutes ++ " minutes"
      executorCalls := [] }

end SessionGate

/-! ### DurableOpenAiAgentOrchestrator (unnamed module): simple conversation
entity, chat orchestrator turn loop and chat endpoint input extraction -/

namespace SimpleAgent

/-- ConversationState of the simple durable agent (chat history only). -/
structure ConversationState where
  chatHistory : List ChatMessage
  createdAt : Nat
  lastUpdated : Nat
deriving DecidableEq, Repr

/-- The lazily created initial entity state. -/
def freshState (now : Nat) : ConversationState :=
  { chatHistory := [], createdAt := now, lastUpdated := now }

/-- Entity operation addMessage: push a timestamped message and bump
lastUpdated. -/
def addMessage (st : ConversationState) (role : Role) (content : String) (now : Nat) :
    ConversationState :=
  { st with chatHistory := st.chatHistory ++ [⟨role, content, now⟩], lastUpdated := now }

/-- Entity operation getFullHistory: the complete ordered message list. -/
def getFullHistory (st : ConversationState) : List ChatMessage :=
  st.chatHistory

/-- One successfully completed chat turn: the user message, the assistant
response the activity produced, and the entity-assigned timestamps of the two
appends. -/
structure Turn where
  message : String
  response : String
  tUser : Nat
  tAssistant : Nat
deriving DecidableEq, Repr

/-- The chat orchestrator body of DurableOpenAiAgentOrchestrator for one
successful turn: store the user message, run the activity (whose successful
result is the turn's response), store the assistant response. -/
def runChatOrchestrator (st : ConversationState) (turn : Turn) : ConversationState :=
  let st1 := addMessage st Role.user turn.message turn.tUser
  addMessage st1 Role.assistant turn.response turn.tAssistant

/-- A sequence of successfully completed turns against one session entity. -/
def runTurns (st : ConversationState) : List Turn → ConversationState
  | [] => st
  | turn :: rest => runTurns (runChatOrchestrator st turn) rest

/-- The JSON body of a POST chat request as the endpoint reads it
(body?.message, body?.prompt, body?.sessionId; none models an absent or
non-string field, the empty string the other falsy string). -/
structure ChatRequestBody where
  message : Option String
  prompt : Option String
  sessionId : Option String
deriving DecidableEq, Repr

/-- The user message the chat endpoint starts the turn with:
body?.message or body?.prompt or the literal Hello. -/
def requestMessage (body : ChatRequestBody) : String :=
  jsOrString body.message (jsOrString body.prompt "Hello")

/-- The session id the chat endpoint uses: body sessionId if truthy, else the
URL parameter if truthy, else session- plus a fresh GUID. -/
def requestSessionId (body : ChatRequestBody) (urlSessionId : Option String)
    (freshGuid : String) : String :=
  jsOrString body.sessionId (jsOrString urlSessionId ("session-" ++ freshGuid))

/-- The orchestration input the chat endpoint always hands to
client.startNew: the extracted message and session id (the handler has no
rejection path for a body missing both message and prompt). -/
def startChat (body : ChatRequestBody) (urlSessionId : Option String) (freshGuid : String) :
    String × String :=
  (requestMessage body, requestSessionId body urlSessionId freshGuid)

end SimpleAgent

/-! ### Helper lemmas -/

/-- updateFirstWith finds nothing when no element satisfies the predicate. -/
theorem updateFirstWith_eq_none {α : Type} (p : α → Bool) (f : α → α) (l : List α)
    (h : ∀ b ∈ l, p b = false) : updateFirstWith p f l = none := by
  induction l with
  | nil => rfl
  | cons x xs ih =>
    have hx := h x (List.mem_cons_self x xs)
    simp [updateFirstWith, hx, ih (fun b hb => h b (List.mem_cons_of_mem x hb))]

/-- updateFirstWith rewrites exactly the first matching element, leaving the
prefix of non-matching elements and the whole suffix untouched. -/
theorem updateFirstWith_split {α : Type} (p : α → Bool) (f : α → α) (l₁ : List α) (a : α)
    (l₂ : List α) (h₁ : ∀ b ∈ l₁, p b = false) (ha : p a = true) :
    updateFirstWith p f (l₁ ++ a :: l₂) = some (l₁ ++ f a :: l₂, f a) := by
  induction l₁ with
  | nil => simp [updateFirstWith, ha]
  | cons x xs ih =>
    have hx := h₁ x (List.mem_cons_self x xs)
    have ih1 := ih (fun b hb => h₁ b (List.mem_cons_of_mem x hb))
    simp [updateFirstWith, hx, ih1]

/-- Looking up a key absent from an argument object yields undefined. -/
theorem lookupArg_eq_none (args : Args) (paramName : String)
    (h : paramName ∉ args.map Prod.fst) : lookupArg args paramName = none := by
  induction args with
  | nil => rfl
  | cons kv rest ih =>
    simp only [List.map_cons, List.mem_cons] at h
    push_neg at h
    have hne : kv.1 ≠ paramName := fun he => h.1 he.symm
    simpa [lookupArg, mapGet, hne] using ih h.2

/-- mapGet after mapSet on the same key returns the new value. -/
theorem mapGet_mapSet_self {α : Type} (m : List (String × α)) (k : String) (v : α) :
    mapGet (mapSet m k v) k = some v := by
  induction m with
  | nil => simp [mapSet, mapGet]
  | cons kv rest ih =>
    by_cases hk : kv.1 = k
    · simp [mapSet, mapGet, hk]
    · simp [mapSet, mapGet, hk, ih]

/-- mapSet keeps the key list unchanged when the key is present (in-place
replacement at the original position) and appends it otherwise. -/
theorem keys_mapSet {α : Type} (m : List (String × α)) (k : String) (v : α) :
    (mapSet m k v).map Prod.fst =
      (if k ∈ m.map Prod.fst then m.map Prod.fst else m.map Prod.fst ++ [k]) := by
  induction m with
  | nil => simp [mapSet]
  | cons kv rest ih =>
    by_cases hk : kv.1 = k
    · simp [mapSet, hk]
    · have hne : k ≠ kv.1 := fun he => hk he.symm
      by_cases hmem : k ∈ rest.map Prod.fst
      · simp [mapSet, hk, hmem, hne, ih]
      · simp [mapSet, hk, hmem, hne, ih]

/-! ### Demo tools used by concrete evaluations -/

/-- Display one positional argument for the demo spy tool. -/
def showOptArg : Option JsValue → String
  | some v => v.encode
  | none => "undefined"

/-- Demo tool whose parameters are declared a then b and whose handler echoes
the positional arguments it receives, in order. -/
def abTool : ToolDefinition :=
  { name := "swap"
    description := "echoes its positional arguments"
    parameters :=
      [("a", { type := ParamType.number, description := "first", required := none }),
       ("b", { type := ParamType.number, description := "second", required := none })]
    handler := fun xs => Except.ok (String.intercalate "|" (xs.map showOptArg)) }

/-- Demo tool whose handler always rejects. -/
def boomTool : ToolDefinition :=
  { name := "boom"
    description := "always fails"
    parameters := []
    handler := fun _ => Except.error "kaboom" }

/-- Demo registry holding the two demo tools. -/
def demoRegistry : ToolRegistry := [("swap", abTool), ("boom", boomTool)]

/-! ### C2: executor failures are caught and converted, only ToolNotFound
propagates -/

/-- C2: for a registered tool whose executor rejects with some message,
executeTool returns the text Error executing name: message instead of
raising; for any registered tool executeTool returns a textual result, and it
raises past its boundary exactly when the looked-up name is absent from the
registry. -/
theorem executeTool_error_containment (reg : ToolRegistry) (toolName : String) (args : Args) :
    (∀ tool msg, mapGet reg toolName = some tool →
      tool.handler (argArrayOf tool args) = Except.error msg →
      executeTool reg toolName args =
        Except.ok ("Error executing " ++ toolName ++ ": " ++ msg)) ∧
    (∀ tool, mapGet reg toolName = some tool →
      ∃ r, executeTool reg toolName args = Except.ok r) ∧
    (mapGet reg toolName = none ↔
      executeTool reg toolName args =
        Except.error ("Tool \x27" ++ toolName ++ "\x27 not found in registry")) := by
  refine ⟨?_, ?_, ?_, ?_⟩
  · intro tool msg hget hh
    simp [executeTool, hget, hh]
  · intro tool hget
    cases hh : tool.handler (argArrayOf tool args) with
    | ok r => exact ⟨r, by simp [executeTool, hget, hh]⟩
    | error e =>
      exact ⟨"Error executing " ++ toolName ++ ": " ++ e, by simp [executeTool, hget, hh]⟩
  · intro hnone
    simp [executeTool, hnone]
  · intro heq
    cases hget : mapGet reg toolName with
    | none => rfl
    | some tool =>
      exfalso
      cases hh : tool.handler (argArrayOf tool args) <;>
        simp [executeTool, hget, hh] at heq

/-- C2 witness: in the demo registry the boom tool rejects and executeTool
returns the converted text. -/
theorem executeTool_error_containment_witness :
    executeTool demoRegistry "boom" [] = Except.ok "Error executing boom: kaboom" :=
  (executeTool_error_containment demoRegistry "boom" []).1 boomTool "kaboom" rfl rfl

/-! ### C3: positional arguments follow parameter declaration order -/

/-- C3: executeTool hands the handler the positional list built from the
tool's parameter declaration order (the keys of the parameters record), not
from the iteration order of the supplied argument mapping, with names absent
from the mapping passed as undefined; in particular a tool declaring a then b
called with the mapping b to 2, a to 1 receives the positional values 1, 2. -/
theorem executeTool_positional_binding (reg : ToolRegistry) (toolName : String)
    (tool : ToolDefinition) (args : Args) (h : mapGet reg toolName = some tool) :
    (executeTool reg toolName args =
      match tool.handler (tool.parameters.map (fun p => lookupArg args p.1)) with
      | Except.ok r => Except.ok r
      | Except.error e => Except.ok ("Error executing " ++ toolName ++ ": " ++ e)) ∧
    (∀ paramName, paramName ∉ args.map Prod.fst → lookupArg args paramName = none) ∧
    argArrayOf abTool [("b", JsValue.num 2), ("a", JsValue.num 1)] =
      [some (JsValue.num 1), some (JsValue.num 2)] := by
  refine ⟨?_, ?_, ?_⟩
  · simp [executeTool, h, argArrayOf, List.map_map]
    rfl
  · exact fun paramName hmem => lookupArg_eq_none args paramName hmem
  · rfl

/-- C3 witness: the spy tool declaring parameters a then b, executed with the
argument mapping listing b first, receives 1 then 2. -/
theorem executeTool_positional_binding_witness :
    executeTool demoRegistry "swap" [("b", JsValue.num 2), ("a", JsValue.num 1)] =
      Except.ok "1|2" := by
  have h := executeTool_positional_binding demoRegistry "swap" abTool
    [("b", JsValue.num 2), ("a", JsValue.num 1)] rfl
  rw [h.1]
  rfl

/-! ### C5: schema determinism and replace-on-reregister -/

/-- Every entry of a map after mapSet is either the inserted pair or an entry
of the original map. -/
theorem mem_mapSet {α : Type} (m : List (String × α)) (k : String) (v : α) (p : String × α) :
    p ∈ mapSet m k v → p = (k, v) ∨ p ∈ m := by
  induction m with
  | nil =>
    intro hp
    simp only [mapSet, List.mem_singleton] at hp
    exact Or.inl hp
  | cons kv rest ih =>
    intro hp
    rw [mapSet] at hp
    by_cases hk : kv.1 = k
    · simp only [if_pos hk, List.mem_cons] at hp
      rcases hp with hp | hp
      · exact Or.inl hp
      · exact Or.inr (List.mem_cons_of_mem kv hp)
    · simp only [if_neg hk, List.mem_cons] at hp
      rcases hp with hp | hp
      · exact Or.inr (hp ▸ List.mem_cons_self kv rest)
      · rcases ih hp with h | h
        · exact Or.inl h
        · exact Or.inr (List.mem_cons_of_mem kv h)

/-- A registry is well formed when every entry is keyed by its definition's
name, which registerTool maintains. -/
def wfRegistry (reg : ToolRegistry) : Prop :=
  ∀ p ∈ reg, p.1 = p.2.name

/-- C5: on a well-formed registry getOpenAISchema enumerates exactly the
currently registered tool names in registration order, rendering each tool as
the spec-shaped structure (type object, one property per parameter with its
type and description, required listing the parameters whose required field is
not false); re-registering an existing name replaces its definition in place
without producing a duplicate entry, new names are appended, and registerTool
preserves well-formedness. -/
theorem getOpenAISchema_registry_determinism (reg : ToolRegistry) (toolDef : ToolDefinition)
    (hwf : wfRegistry reg) :
    (getOpenAISchema reg).map FunctionSchema.name = getToolNames reg ∧
    getOpenAISchema reg = reg.map (fun p => describeToolSpec p.2) ∧
    getToolNames (registerTool reg toolDef) =
      (if toolDef.name ∈ getToolNames reg then getToolNames reg
       else getToolNames reg ++ [toolDef.name]) ∧
    mapGet (registerTool reg toolDef) toolDef.name = some toolDef ∧
    wfRegistry (registerTool reg toolDef) := by
  refine ⟨?_, ?_, ?_, ?_, ?_⟩
  · unfold getOpenAISchema getToolNames
    rw [List.map_map]
    exact (List.map_congr_left (fun p hp => (hwf p hp).symm))
  · rfl
  · exact keys_mapSet reg toolDef.name toolDef
  · exact mapGet_mapSet_self reg toolDef.name toolDef
  · intro p hp
    rcases mem_mapSet reg toolDef.name toolDef p hp with h | h
    · rw [h]
    · exact hwf p h

/-- C5 witness: re-registering the swap tool over the demo registry keeps the
name list free of duplicates and in the original order. -/
theorem getOpenAISchema_registry_determinism_witness :
    getToolNames (registerTool demoRegistry abTool) = ["swap", "boom"] := by
  have h := getOpenAISchema_registry_determinism demoRegistry abTool (by
    intro p hp
    simp only [demoRegistry, List.mem_cons, List.mem_singleton, List.not_mem_nil,
      or_false] at hp
    rcases hp with hp | hp
    · subst hp
      rfl
    · subst hp
      rfl)
  rw [h.2.2.1]
  decide

/-! ### C6 and C7: approval lifecycle in the id-keyed entity -/

/-- Wrapper.handleApproval on a state whose approval list splits into a prefix
with no matching id, the matching request, and a suffix: it succeeds and
rewrites exactly the matching request. -/
theorem wrapper_handleApproval_split (st : Wrapper.ConversationState) (approvalId : String)
    (decision : Decision) (humanResponse : Option String) (now : Nat)
    (l₁ : List Wrapper.HumanApprovalRequest) (a : Wrapper.HumanApprovalRequest)
    (l₂ : List Wrapper.HumanApprovalRequest)
    (hsplit : st.pendingApprovals = l₁ ++ a :: l₂)
    (hfirst : ∀ b ∈ l₁, b.id ≠ approvalId)
    (hid : a.id = approvalId) :
    Wrapper.handleApproval st approvalId decision humanResponse now =
      ({ st with
          pendingApprovals := l₁ ++
            { a with
              status := decision.toStatus
              humanResponse := humanResponse
              humanResponseTimestamp := some now } :: l₂
          lastUpdated := now },
       Wrapper.HandleApprovalResult.success
         { a with
           status := decision.toStatus
           humanResponse := humanResponse
           humanResponseTimestamp := some now }) := by
  have h1 : ∀ b ∈ l₁, decide (b.id = approvalId) = false :=
    fun b hb => decide_eq_false (hfirst b hb)
  have h2 : decide (a.id = approvalId) = true := decide_eq_true hid
  unfold Wrapper.handleApproval
  rw [hsplit,
    updateFirstWith_split (fun b => decide (b.id = approvalId))
      (Wrapper.resolveRequest decision humanResponse now) l₁ a l₂ h1 h2]
  rfl

/-- C6: an ApprovalRequest created by addApprovalRequest starts with status
pending (and no decision fields); handleApproval with decision approved on an
existing id transitions the matching request to approved and stamps its
decision timestamp; handleApproval on an id matching no stored request fails
with the not-found result and leaves the state unchanged. -/
theorem approval_request_lifecycle (st : Wrapper.ConversationState)
    (freshId toolName : String) (toolArgs : Args) (reasoning : String) (now : Nat)
    (approvalId : String) (decision : Decision) (humanResponse : Option String) (now2 : Nat) :
    ((Wrapper.addApprovalRequest st freshId toolName toolArgs reasoning now).1.pendingApprovals =
      st.pendingApprovals ++
        [{ id := freshId
           toolName := toolName
           toolArgs := toolArgs
           reasoning := reasoning
           timestamp := now
           status := ApprovalStatus.pending
           humanResponse := none
           humanResponseTimestamp := none }]) ∧
    (∀ l₁ a l₂, st.pendingApprovals = l₁ ++ a :: l₂ →
      (∀ b ∈ l₁, Wrapper.HumanApprovalRequest.id b ≠ approvalId) → a.id = approvalId →
      Wrapper.handleApproval st approvalId Decision.approved humanResponse now2 =
        ({ st with
            pendingApprovals := l₁ ++
              { a with
                status := ApprovalStatus.approved
                humanResponse := humanResponse
                humanResponseTimestamp := some now2 } :: l₂
            lastUpdated := now2 },
         Wrapper.HandleApprovalResult.success
           { a with
             status := ApprovalStatus.approved
             humanResponse := humanResponse
             humanResponseTimestamp := some now2 })) ∧
    ((∀ b ∈ st.pendingApprovals, Wrapper.HumanApprovalRequest.id b ≠ approvalId) →
      Wrapper.handleApproval st approvalId decision humanResponse now2 =
        (st, Wrapper.HandleApprovalResult.notFound)) := by
  refine ⟨rfl, ?_, ?_⟩
  · intro l₁ a l₂ hsplit hfirst hid
    exact wrapper_handleApproval_split st approvalId Decision.approved humanResponse now2
      l₁ a l₂ hsplit hfirst hid
  · intro hnone
    have h : updateFirstWith (fun b => decide (b.id = approvalId))
        (Wrapper.resolveRequest decision humanResponse now2) st.pendingApprovals = none :=
      updateFirstWith_eq_none _ _ _ (fun b hb => decide_eq_false (hnone b hb))
    unfold Wrapper.handleApproval
    rw [h]

/-- Demo approval request stored under id-1. -/
def wDemoReq : Wrapper.HumanApprovalRequest :=
  { id := "id-1"
    toolName := "makePayment"
    toolArgs := [("amount", JsValue.num 100)]
    reasoning := "transfer requested"
    timestamp := 1
    status := ApprovalStatus.pending
    humanResponse := none
    humanResponseTimestamp := none }

/-- Demo entity state holding exactly the one pending demo request. -/
def wDemoState : Wrapper.ConversationState :=
  (Wrapper.addApprovalRequest (Wrapper.freshState 0) "id-1" "makePayment"
    [("amount", JsValue.num 100)] "transfer requested" 1).1

/-- C6 witness: resolving the freshly created pending request as approved
yields the approved, stamped request. -/
theorem approval_request_lifecycle_witness :
    (Wrapper.handleApproval wDemoState "id-1" Decision.approved (some "go ahead") 2).2 =
      Wrapper.HandleApprovalResult.success
        { wDemoReq with
          status := ApprovalStatus.approved
          humanResponse := some "go ahead"
          humanResponseTimestamp := some 2 } := by
  have h := (approval_request_lifecycle wDemoState "id-1" "makePayment"
      [("amount", JsValue.num 100)] "transfer requested" 1 "id-1" Decision.approved
      (some "go ahead") 2).2.1 [] wDemoReq [] rfl (by simp) rfl
  rw [h]

/-- C7: handleApproval is not idempotent: on a request that is already in a
terminal status (approved or rejected) it succeeds again and silently
overwrites the stored status, human response and decision timestamp instead
of failing or being a no-op. -/
theorem resolveApproval_not_idempotent (st : Wrapper.ConversationState) (approvalId : String)
    (decision : Decision) (humanResponse : Option String) (now : Nat)
    (l₁ : List Wrapper.HumanApprovalRequest) (a : Wrapper.HumanApprovalRequest)
    (l₂ : List Wrapper.HumanApprovalRequest)
    (hsplit : st.pendingApprovals = l₁ ++ a :: l₂)
    (hfirst : ∀ b ∈ l₁, Wrapper.HumanApprovalRequest.id b ≠ approvalId)
    (hid : a.id = approvalId)
    (_hterminal : a.status = ApprovalStatus.approved ∨ a.status = ApprovalStatus.rejected) :
    Wrapper.handleApproval st approvalId decision humanResponse now =
      ({ st with
          pendingApprovals := l₁ ++
            { a with
              status := decision.toStatus
              humanResponse := humanResponse
              humanResponseTimestamp := some now } :: l₂
          lastUpdated := now },
       Wrapper.HandleApprovalResult.success
         { a with
           status := decision.toStatus
           humanResponse := humanResponse
           humanResponseTimestamp := some now }) :=
  wrapper_handleApproval_split st approvalId decision humanResponse now l₁ a l₂
    hsplit hfirst hid

/-- Demo state in which the demo request has already been resolved approved. -/
def wResolvedState : Wrapper.ConversationState :=
  (Wrapper.handleApproval wDemoState "id-1" Decision.approved (some "go ahead") 2).1

/-- C7 witness: resolving the already-approved demo request again, now as
rejected, succeeds and overwrites status, response and timestamp. -/
theorem resolveApproval_not_idempotent_witness :
    (Wrapper.handleApproval wResolvedState "id-1" Decision.rejected (some "changed my mind") 3).2 =
      Wrapper.HandleApprovalResult.success
        { wDemoReq with
          status := ApprovalStatus.rejected
          humanResponse := some "changed my mind"
          humanResponseTimestamp := some 3 } := by
  have h := resolveApproval_not_idempotent wResolvedState "id-1" Decision.rejected
    (some "changed my mind") 3 []
    { wDemoReq with
      status := ApprovalStatus.approved
      humanResponse := some "go ahead"
      humanResponseTimestamp := some 2 } [] rfl (by simp) rfl (Or.inl rfl)
  rw [h]
  rfl

/-! ### C10: session-keyed resolution mutates only the first pending match -/

/-- C10: in the session-keyed entity, handleApproval mutates exactly the first
(earliest-created) request whose sessionId matches and whose status is still
pending: the prefix of non-matching requests and the whole suffix are returned
unchanged, only the matched request's status, response and timestamp fields
are rewritten, and the chat history is untouched. -/
theorem handleApproval_mutates_first_pending_only (st : SessionGate.ConversationState)
    (sessionId : String) (decision : Decision) (humanResponse : Option String) (now : Nat)
    (l₁ : List SessionGate.HumanApprovalRequest) (a : SessionGate.HumanApprovalRequest)
    (l₂ : List SessionGate.HumanApprovalRequest)
    (hsplit : st.pendingApprovals = l₁ ++ a :: l₂)
    (hfirst : ∀ b ∈ l₁,
      ¬(SessionGate.HumanApprovalRequest.sessionId b = sessionId ∧
        SessionGate.HumanApprovalRequest.status b = ApprovalStatus.pending))
    (ha : a.sessionId = sessionId ∧ a.status = ApprovalStatus.pending) :
    SessionGate.handleApproval st sessionId decision humanResponse now =
      ({ st with
          pendingApprovals := l₁ ++
            { a with
              status := decision.toStatus
              humanResponse := humanResponse
              humanResponseTimestamp := some now } :: l₂
          lastUpdated := now },
       SessionGate.HandleApprovalResult.success
         { a with
           status := decision.toStatus
           humanResponse := humanResponse
           humanResponseTimestamp := some now }) ∧
    (SessionGate.handleApproval st sessionId decision humanResponse now).1.chatHistory =
      st.chatHistory := by
  have h1 : ∀ b ∈ l₁,
      decide (b.sessionId = sessionId ∧ b.status = ApprovalStatus.pending) = false :=
    fun b hb => decide_eq_false (hfirst b hb)
  have h2 : decide (a.sessionId = sessionId ∧ a.status = ApprovalStatus.pending) = true :=
    decide_eq_true ha
  have hmain : SessionGate.handleApproval st sessionId decision humanResponse now =
      ({ st with
          pendingApprovals := l₁ ++
            { a with
              status := decision.toStatus
              humanResponse := humanResponse
              humanResponseTimestamp := some now } :: l₂
          lastUpdated := now },
       SessionGate.HandleApprovalResult.success
         { a with
           status := decision.toStatus
           humanResponse := humanResponse
           humanResponseTimestamp := some now }) := by
    unfold SessionGate.handleApproval
    rw [hsplit,
      updateFirstWith_split
        (fun b => decide (b.sessionId = sessionId ∧ b.status = ApprovalStatus.pending))
        (SessionGate.resolveRequest decision humanResponse now) l₁ a l₂ h1 h2]
    rfl
  exact ⟨hmain, by rw [hmain]⟩

/-- Pending request of another session, created earlier. -/
def sgReqOther : SessionGate.HumanApprovalRequest :=
  { sessionId := "s2"
    toolName := "makePayment"
    toolArgs := []
    reasoning := "other session"
    timestamp := 0
    status := ApprovalStatus.pending
    humanResponse := none
    humanResponseTimestamp := none }

/-- First pending request of session s1. -/
def sgReqA : SessionGate.HumanApprovalRequest :=
  { sessionId := "s1"
    toolName := "makePayment"
    toolArgs := [("amount", JsValue.num 100)]
    reasoning := "first"
    timestamp := 1
    status := ApprovalStatus.pending
    humanResponse := none
    humanResponseTimestamp := none }

/-- Second pending request of session s1, created later. -/
def sgReqB : SessionGate.HumanApprovalRequest :=
  { sessionId := "s1"
    toolName := "makePayment"
    toolArgs := [("amount", JsValue.num 200)]
    reasoning := "second"
    timestamp := 2
    status := ApprovalStatus.pending
    humanResponse := none
    humanResponseTimestamp := none }

/-- Demo session-keyed state with three pending requests and one message. -/
def sgDemoState : SessionGate.ConversationState :=
  { chatHistory := [⟨Role.user, "pay twice", 0⟩]
    pendingApprovals := [sgReqOther, sgReqA, sgReqB]
    createdAt := 0
    lastUpdated := 2 }

/-- C10 witness: resolving session s1 rewrites only the earliest pending s1
request, leaving the other session's request, the later s1 request and the
chat history unchanged. -/
theorem handleApproval_mutates_first_pending_only_witness :
    (SessionGate.handleApproval sgDemoState "s1" Decision.rejected (some "not authorized") 5).1.pendingApprovals =
      [sgReqOther,
       { sgReqA with
         status := ApprovalStatus.rejected
         humanResponse := some "not authorized"
         humanResponseTimestamp := some 5 },
       sgReqB] ∧
    (SessionGate.handleApproval sgDemoState "s1" Decision.rejected (some "not authorized") 5).1.chatHistory =
      sgDemoState.chatHistory := by
  have h := handleApproval_mutates_first_pending_only sgDemoState "s1" Decision.rejected
    (some "not authorized") 5 [sgReqOther] sgReqA [sgReqB] rfl
    (by
      intro b hb
      simp only [List.mem_singleton] at hb
      subst hb
      decide)
    ⟨rfl, rfl⟩
  refine ⟨?_, h.2⟩
  rw [h.1]
  rfl

/-! ### C4: timeout resolves as rejected and never executes -/

/-- When every poll observes no decided approval for the session and tool, the
poll loop runs to its deadline and returns none. -/
theorem pollForDecision_eq_none (storeAt : Nat → SessionGate.ConversationState)
    (sessionId toolName : String)
    (h : ∀ t, SessionGate.findDecided (storeAt t) sessionId toolName = none)
    (deadline t : Nat) :
    SessionGate.pollForDecision storeAt sessionId toolName deadline t = none := by
  unfold SessionGate.pollForDecision
  by_cases hlt : t < deadline
  · rw [dif_pos hlt, h (t + 5000)]
    exact pollForDecision_eq_none storeAt sessionId toolName h deadline (t + 5000)
  · rw [dif_neg hlt]
termination_by deadline - t
decreasing_by omega

/-- C4: when no human decision is observed at any poll before the configured
deadline and the session has no other pending request, the gated call marks
the approval it created as rejected with the timeout reason, produces the
synthetic timeout text, and never invokes the tool executor. -/
theorem gate_timeout_rejects_without_execution
    (storeAt : Nat → SessionGate.ConversationState) (execTool : String → Args → String)
    (st : SessionGate.ConversationState) (sessionId toolName : String) (toolArgs : Args)
    (t0 approvalTimeoutMinutes : Nat)
    (hnodecision : ∀ t, SessionGate.findDecided (storeAt t) sessionId toolName = none)
    (hnopending : ∀ b ∈ st.pendingApprovals,
      ¬(SessionGate.HumanApprovalRequest.sessionId b = sessionId ∧
        SessionGate.HumanApprovalRequest.status b = ApprovalStatus.pending)) :
    SessionGate.runGatedToolCall storeAt execTool st sessionId toolName toolArgs t0
        approvalTimeoutMinutes =
      { state :=
          { st with
            pendingApprovals := st.pendingApprovals ++
              [{ sessionId := sessionId
                 toolName := toolName
                 toolArgs := toolArgs
                 reasoning := "AI wants to execute " ++ toolName ++ " with: " ++ encodeArgs toolArgs
                 timestamp := t0
                 status := ApprovalStatus.rejected
                 humanResponse :=
                   some ("Timeout after " ++ toString approvalTimeoutMinutes ++ " minutes")
                 humanResponseTimestamp := some (t0 + approvalTimeoutMinutes * 60 * 1000) }]
            lastUpdated := t0 + approvalTimeoutMinutes * 60 * 1000 }
        finalResponse :=
          "[TIMEOUT] Request timed out after " ++ toString approvalTimeoutMinutes ++ " minutes"
        executorCalls := [] } := by
  unfold SessionGate.runGatedToolCall
  dsimp only
  rw [pollForDecision_eq_none storeAt sessionId toolName hnodecision]
  dsimp only
  have hsplit : ((SessionGate.addApprovalRequest st sessionId toolName toolArgs
      ("AI wants to execute " ++ toolName ++ " with: " ++ encodeArgs toolArgs) t0).1).pendingApprovals =
      st.pendingApprovals ++
        [{ sessionId := sessionId
           toolName := toolName
           toolArgs := toolArgs
           reasoning := "AI wants to execute " ++ toolName ++ " with: " ++ encodeArgs toolArgs
           timestamp := t0
           status := ApprovalStatus.pending
           humanResponse := none
           humanResponseTimestamp := none }] := rfl
  have h := handleApproval_mutates_first_pending_only
    ((SessionGate.addApprovalRequest st sessionId toolName toolArgs
      ("AI wants to execute " ++ toolName ++ " with: " ++ encodeArgs toolArgs) t0).1)
    sessionId Decision.rejected
    (some ("Timeout after " ++ toString approvalTimeoutMinutes ++ " minutes"))
    (t0 + approvalTimeoutMinutes * 60 * 1000)
    st.pendingApprovals
    { sessionId := sessionId
      toolName := toolName
      toolArgs := toolArgs
      reasoning := "AI wants to execute " ++ toolName ++ " with: " ++ encodeArgs toolArgs
      timestamp := t0
      status := ApprovalStatus.pending
      humanResponse := none
      humanResponseTimestamp := none }
    [] (by simpa using hsplit) hnopending ⟨rfl, rfl⟩
  rw [h.1]
  rfl

/-- C4 witness: a gated payment call on a fresh session with no decision ever
recorded times out after the 1-minute deadline, producing the timeout text and
no executor invocation. -/
theorem gate_timeout_rejects_without_execution_witness :
    (SessionGate.runGatedToolCall (fun _ => SessionGate.freshState 0) (fun _ _ => "paid")
        (SessionGate.freshState 0) "s1" "makePayment" [("amount", JsValue.num 100)] 0
        1).finalResponse =
      "[TIMEOUT] Request timed out after 1 minutes" ∧
    (SessionGate.runGatedToolCall (fun _ => SessionGate.freshState 0) (fun _ _ => "paid")
        (SessionGate.freshState 0) "s1" "makePayment" [("amount", JsValue.num 100)] 0
        1).executorCalls = [] := by
  have h := gate_timeout_rejects_without_execution (fun _ => SessionGate.freshState 0)
    (fun _ _ => "paid") (SessionGate.freshState 0) "s1" "makePayment"
    [("amount", JsValue.num 100)] 0 1 (fun _ => rfl)
    (by
      intro b hb
      simp [SessionGate.freshState] at hb)
  rw [h]
  exact ⟨rfl, rfl⟩

/-! ### C8: transcript is append-only, ordered, user/assistant alternating -/

namespace SimpleAgent

/-- The two messages one completed turn appends: the user message first, the
assistant response second. -/
def turnMessages (turn : Turn) : List ChatMessage :=
  [{ role := Role.user, content := turn.message, timestamp := turn.tUser },
   { role := Role.assistant, content := turn.response, timestamp := turn.tAssistant }]

end SimpleAgent

/-- C8: after any sequence of successfully completed turns the full history is
the previous history followed by, per turn in call order, the user message and
then the assistant message; starting from a fresh session this yields exactly
2N messages for N turns, alternating user then assistant, with nothing
reordered or dropped. -/
theorem transcript_append_only_alternating (st : SimpleAgent.ConversationState)
    (turns : List SimpleAgent.Turn) (t0 : Nat) :
    SimpleAgent.getFullHistory (SimpleAgent.runTurns st turns) =
      SimpleAgent.getFullHistory st ++ turns.flatMap SimpleAgent.turnMessages ∧
    (SimpleAgent.getFullHistory
        (SimpleAgent.runTurns (SimpleAgent.freshState t0) turns)).length =
      2 * turns.length := by
  have key : ∀ (s : SimpleAgent.ConversationState) (ts : List SimpleAgent.Turn),
      SimpleAgent.getFullHistory (SimpleAgent.runTurns s ts) =
        SimpleAgent.getFullHistory s ++ ts.flatMap SimpleAgent.turnMessages := by
    intro s ts
    induction ts generalizing s with
    | nil => simp [SimpleAgent.runTurns]
    | cons turn rest ih =>
      rw [SimpleAgent.runTurns, ih]
      simp [SimpleAgent.runChatOrchestrator, SimpleAgent.addMessage,
        SimpleAgent.getFullHistory, SimpleAgent.turnMessages]
  have hlen : ∀ ts : List SimpleAgent.Turn,
      (ts.flatMap SimpleAgent.turnMessages).length = 2 * ts.length := by
    intro ts
    induction ts with
    | nil => rfl
    | cons turn rest ih =>
      simp only [List.flatMap_cons, List.length_append, List.length_cons, ih,
        SimpleAgent.turnMessages, List.length_nil]
      omega
  refine ⟨key st turns, ?_⟩
  rw [key (SimpleAgent.freshState t0) turns]
  simp [SimpleAgent.freshState, SimpleAgent.getFullHistory, hlen turns]

/-! ### C9: a body with neither message nor prompt starts the turn with
Hello -/

/-- C9: a POST chat body whose message and prompt fields are both absent or
falsy still starts the turn (the handler has no rejection path for this), with
the user message defaulted to the literal Hello. -/
theorem chat_endpoint_defaults_to_hello (body : SimpleAgent.ChatRequestBody)
    (urlSessionId : Option String) (freshGuid : String)
    (hm : body.message = none ∨ body.message = some "")
    (hp : body.prompt = none ∨ body.prompt = some "") :
    SimpleAgent.startChat body urlSessionId freshGuid =
      ("Hello", SimpleAgent.requestSessionId body urlSessionId freshGuid) ∧
    SimpleAgent.requestMessage body = "Hello" := by
  have hmsg : SimpleAgent.requestMessage body = "Hello" := by
    rcases hm with h1 | h1 <;> rcases hp with h2 | h2 <;>
      simp [SimpleAgent.requestMessage, jsOrString, h1, h2]
  refine ⟨?_, hmsg⟩
  unfold SimpleAgent.startChat
  rw [hmsg]

/-- C9 witness: the empty body yields a started turn with message Hello and a
freshly generated session id. -/
theorem chat_endpoint_defaults_to_hello_witness :
    SimpleAgent.startChat ⟨none, none, none⟩ none "guid-1" = ("Hello", "session-guid-1") := by
  have h := chat_endpoint_defaults_to_hello ⟨none, none, none⟩ none "guid-1"
    (Or.inl rfl) (Or.inl rfl)
  rw [h.1]
  rfl

/-! ### C1: the wrapper gate is a mock that executes before any decision -/

/-- Demo payment arguments. -/
def payArgs : Args := [("amount", JsValue.num 100)]

/-- Demo payment tool whose handler succeeds. -/
def makePaymentTool : ToolDefinition :=
  { name := "makePayment"
    description := "transfers money"
    parameters :=
      [("amount", { type := ParamType.number, description := "amount", required := none })]
    handler := fun _ => Except.ok "payment executed" }

/-- Demo registry holding only the payment tool. -/
def payRegistry : ToolRegistry := [("makePayment", makePaymentTool)]

/-- The pending record the wrapper gate stores for the demo call. -/
def payApprovalData : Wrapper.PendingApprovalData :=
  { toolName := "makePayment"
    toolArgs := payArgs
    reasoning := "pay the invoice"
    sessionId := "s1"
    timestamp := 7
    status := ApprovalStatus.pending }

/-- C1 (evidence of the divergence): in the wrapper variant a gated call to
makePayment invokes the tool executor immediately, while the approval record
it just stored is still pending, because requestHumanApproval resolves
approved unconditionally; the decision eventually recorded through
processApprovalDecision can then be rejected, after the executor already ran,
so the executor invocation is not governed by the eventual recorded
decision. -/
theorem wrapper_gate_executes_before_any_decision :
    Wrapper.gatedToolCallStep payRegistry ["makePayment"] [] "s1" "makePayment" payArgs
        "pay the invoice" 7 =
      Except.ok
        { pending := [("approval-s1-makePayment-7", payApprovalData)]
          toolMessage := "[HUMAN APPROVED] payment executed"
          executorCalls := [("makePayment", payArgs)] } ∧
    (Wrapper.processApprovalDecision payRegistry
        [("approval-s1-makePayment-7", payApprovalData)] "approval-s1-makePayment-7" false
        (some "not authorized") 9).1 =
      [("approval-s1-makePayment-7",
        { payApprovalData with
          status := ApprovalStatus.rejected
          feedback := some "not authorized"
          decidedAt := some 9 })] :=
  ⟨rfl, rfl⟩
